import Mathlib

set_option maxHeartbeats 1000000

/-!
Formal model of the Graph-Generator repository: design constants, layout
arithmetic, config validation, slug generation, output naming, and the
metadata-level image pipeline, embedded from the Python sources under src/.
-/

/-! ## Design constants (src/config/constants.py) -/

def GRID_UNIT : Nat := 8

def CANVAS_WIDTH : Nat := 1600

def CANVAS_HEIGHT : Nat := 900

def SUPPORTED_CHART_TYPES : List String :=
  ["stacked_bar", "line", "pie", "area", "bar"]

/-! ## Layout engine (src/utils/layout_utils.py) -/

/-- Named pixel positions returned by calculate_layout_positions. -/
structure LayoutPositions where
  title_x : Nat
  title_y : Nat
  subtitle_x : Nat
  subtitle_y : Nat
  logo_x : Nat
  logo_y : Nat
  graph_x : Nat
  graph_y : Nat
  graph_width : Nat
  graph_height : Nat
  footer_y : Nat
deriving DecidableEq

/-- calculate_layout_positions from src/utils/layout_utils.py: positions on
the 8px grid.  The function takes no argument in the source (the lru_cache
memoizes the single result), so it is modelled as a constant.  Every
subtraction stays nonnegative, so Nat subtraction agrees with Python int
arithmetic here. -/
def calculate_layout_positions : LayoutPositions where
  title_x := GRID_UNIT * 8
  title_y := GRID_UNIT * 8
  subtitle_x := GRID_UNIT * 8
  subtitle_y := GRID_UNIT * 16
  logo_x := CANVAS_WIDTH - GRID_UNIT * 8 - 200
  logo_y := GRID_UNIT * 8
  graph_x := GRID_UNIT * 8
  graph_y := GRID_UNIT * 32
  graph_width := CANVAS_WIDTH - GRID_UNIT * 16
  graph_height := CANVAS_HEIGHT - GRID_UNIT * 64
  footer_y := CANVAS_HEIGHT - GRID_UNIT * 12

/-! ## Image metadata model (PIL images: mode and pixel size) -/

/-- Metadata of a PIL image: color mode and pixel dimensions. -/
structure PILImage where
  mode : String
  width : Nat
  height : Nat
deriving DecidableEq

/-- Image.resize returns an image of exactly the requested size, keeping
the mode. -/
def pilResize (im : PILImage) (w h : Nat) : PILImage := ⟨im.mode, w, h⟩

/-- Image.convert returns an image of the requested mode, keeping the
size. -/
def pilConvert (im : PILImage) (m : String) : PILImage := ⟨m, im.width, im.height⟩

/-- The size attribute of a PIL image. -/
def pilSize (im : PILImage) : Nat × Nat := (im.width, im.height)

/-- Chart-raster part of DashboardRenderer._add_chart
(src/ui/dashboard_renderer.py): the factory output is resized with LANCZOS
resampling to the layout graph region exactly when its native size
differs, and is then pasted at the graph origin.  All five renderers hand
their native raster through this same code path. -/
def add_chart_image (graph_image : PILImage) : PILImage :=
  if pilSize graph_image ≠ (calculate_layout_positions.graph_width,
      calculate_layout_positions.graph_height) then
    pilResize graph_image calculate_layout_positions.graph_width
      calculate_layout_positions.graph_height
  else graph_image

/-! ## Pie chart call (src/charts/pie_chart.py) -/

/-- The Axes.pie keyword arguments relevant to wedge geometry. -/
structure PieCallArgs where
  startangle : ℚ
  counterclock : Bool
  pctdistance : ℚ
  labeldistance : ℚ
deriving DecidableEq

/-- Arguments of the Axes.pie call in PieChart.create_chart
(src/charts/pie_chart.py lines 38-47).  startangle=90, pctdistance=0.85 and
labeldistance=1.1 are passed explicitly; counterclock is not passed, so it
takes the documented matplotlib default True, i.e. wedge fractions are laid
out counterclockwise. -/
def pieChartCallArgs : PieCallArgs where
  startangle := 90
  counterclock := true
  pctdistance := (85 : ℚ) / 100
  labeldistance := (11 : ℚ) / 10

/-! ## Stacked bar value labels (src/charts/stacked_bar_chart.py) -/

/-- Label decision of StackedBarChart._add_value_labels for segment i of
one period: row is the period list of category values, so the bar for
segment i has height row.getD i 0 and the stacked total is row.sum.  The
source draws the text exactly when the height is positive and the ratio
height / total exceeds the 0.1 threshold (floats are modelled as exact
rationals). -/
def labelDrawn (row : List ℚ) (i : Nat) : Bool :=
  if 0 < row.getD i 0 then
    if (1 : ℚ) / 10 < row.getD i 0 / row.sum then true else false
  else false

/-! ## Slugify (src/utils/text_utils.py) -/

/-- Codepoints of Python text whitespace: this single predicate underlies
both the regex class \s and str.strip on text strings (CPython implements
both with the same character test): ASCII whitespace, the C0 separators,
next line, and the Unicode space characters. -/
def pySpaceCodes : List Nat :=
  [0x09, 0x0a, 0x0b, 0x0c, 0x0d, 0x1c, 0x1d, 0x1e, 0x1f, 0x20, 0x85, 0xa0,
   0x1680, 0x2000, 0x2001, 0x2002, 0x2003, 0x2004, 0x2005, 0x2006, 0x2007,
   0x2008, 0x2009, 0x200a, 0x2028, 0x2029, 0x202f, 0x205f, 0x3000]

/-- Python text whitespace test. -/
def isPySpace (c : Char) : Bool := decide (c.toNat ∈ pySpaceCodes)

/-- ASCII alphanumeric: the a-zA-Z0-9 part of the first regex class of
slugify. -/
def isAsciiAlphanum (c : Char) : Bool :=
  (97 ≤ c.toNat && c.toNat ≤ 122) || (65 ≤ c.toNat && c.toNat ≤ 90) ||
  (48 ≤ c.toNat && c.toNat ≤ 57)

/-- The character class kept by the first substitution of slugify:
everything outside [a-zA-Z0-9\s-] is deleted. -/
def keepChar (c : Char) : Bool := isAsciiAlphanum c || isPySpace c || c == '-'

/-- str.strip: drop whitespace from both ends. -/
def stripChars (l : List Char) : List Char :=
  ((l.dropWhile isPySpace).reverse.dropWhile isPySpace).reverse

/-- The second substitution of slugify: each maximal whitespace run becomes
one hyphen; inRun records whether the previous character was in a run. -/
def collapseWs (inRun : Bool) : List Char → List Char
  | [] => []
  | c :: cs =>
    if isPySpace c then
      if inRun then collapseWs true cs else '-' :: collapseWs true cs
    else c :: collapseWs false cs

/-- str.lower on the characters slugify can reach at its final step: after
the two substitutions only ASCII alphanumerics and hyphens remain, and on
ASCII the Python lowercase mapping is exactly the +32 shift on A-Z. -/
def pyLower (c : Char) : Char :=
  if 65 ≤ c.toNat && c.toNat ≤ 90 then Char.ofNat (c.toNat + 32) else c

/-- slugify from src/utils/text_utils.py: delete characters outside
[a-zA-Z0-9\s-], strip, replace whitespace runs by single hyphens,
lowercase. -/
def slugify (s : String) : String :=
  ⟨(collapseWs false (stripChars (s.data.filter keepChar))).map pyLower⟩

/-- Characters that can appear in a slug: lowercase ASCII letters, digits,
hyphen. -/
def slugChar (c : Char) : Bool :=
  (97 ≤ c.toNat && c.toNat ≤ 122) || (48 ≤ c.toNat && c.toNat ≤ 57) ||
  c == '-'

/-! ## Output naming (src/utils/file_utils.py) -/

/-- Decimal digits of n, least significant first, with explicit fuel; any
fuel of at least n lets the recursion bottom out. -/
def toDigitsRev (fuel n : Nat) : List Nat :=
  match fuel with
  | 0 => []
  | fuel + 1 => if n = 0 then [] else n % 10 :: toDigitsRev fuel (n / 10)

/-- Decimal string of a Nat, as the Python str conversion inside the
f-string of generate_unique_filename produces it. -/
def natRepr (n : Nat) : String :=
  if n = 0 then "0"
  else ⟨(toDigitsRev n n).reverse.map (fun d => Char.ofNat (48 + d))⟩

/-- os.path.join with two components (POSIX semantics: an absolute second
component wins; otherwise one separator is placed between the parts). -/
def pathJoin (dir name : String) : String :=
  if name.data.head? = some '/' then name
  else if dir = "" then name
  else if dir.data.getLast? = some '/' then dir ++ name
  else dir ++ "/" ++ name

/-- The filename part of the k-th candidate tried by
generate_unique_filename: base.png first, then base-1.png, base-2.png and
so on. -/
def nameOf (base : String) : Nat → String
  | 0 => base ++ ".png"
  | k + 1 => base ++ "-" ++ natRepr (k + 1) ++ ".png"

/-- The k-th candidate path tried by generate_unique_filename. -/
def candidatePath (dir base : String) (k : Nat) : String :=
  pathJoin dir (nameOf base k)

/-- The while loop of generate_unique_filename: starting at candidate k,
return the first candidate that is not an existing path; the fuel bounds
the number of iterations and generate_unique_filename always passes enough
of it for the loop to reach a free candidate. -/
def gufLoop (ex : List String) (dir base : String) : Nat → Nat → String
  | 0, k => candidatePath dir base k
  | fuel + 1, k =>
    if candidatePath dir base k ∈ ex then gufLoop ex dir base fuel (k + 1)
    else candidatePath dir base k

/-- generate_unique_filename from src/utils/file_utils.py, with the
filesystem state modelled as the list ex of existing paths (os.path.exists
is membership in ex). -/
def generate_unique_filename (ex : List String) (dir base : String) :
    String :=
  gufLoop ex dir base (ex.length + 1) 0

/-! ## Config values and validation (src/utils/text_utils.py) -/

/-- Dynamic values of a parsed JSON configuration. -/
inductive Val where
  | vstr (s : String)
  | vnum (q : ℚ)
  | vbool (b : Bool)
  | vnull
  | vlist (xs : List Val)
  | vdict (kvs : List (String × Val))

/-- Python errors that validation can surface. -/
inductive PyErr where
  | valueError (msg : String)
  | typeError (msg : String)
  | keyError (k : String)

/-- Dict lookup by key. -/
def dictLookup (kvs : List (String × Val)) (k : String) : Option Val :=
  match kvs with
  | [] => none
  | (k2, v) :: rest => if k2 = k then some v else dictLookup rest k

/-- Substring test on char lists (Python needle in haystack for str). -/
def substrB (needle : List Char) : List Char → Bool
  | [] => needle.isEmpty
  | c :: rest => needle.isPrefixOf (c :: rest) || substrB needle rest

/-- The Python in operator as validate_config uses it: key membership for
dicts, element equality for lists, substring for strings; numbers, bools
and None are not containers, so they raise TypeError. -/
def pyContains (v : Val) (key : String) : Except PyErr Bool :=
  match v with
  | .vdict kvs => .ok (dictLookup kvs key).isSome
  | .vlist xs => .ok (xs.any (fun x => match x with
      | .vstr s => s == key
      | _ => false))
  | .vstr s => .ok (substrB key.data s.data)
  | _ => .error (.typeError ("argument is not iterable"))

/-- Python subscription v[key] with a string key: dict lookup, KeyError
when the key is absent; any non-dict raises TypeError. -/
def pyGetItem (v : Val) (key : String) : Except PyErr Val :=
  match v with
  | .vdict kvs =>
    match dictLookup kvs key with
    | some x => .ok x
    | none => .error (.keyError key)
  | _ => .error (.typeError ("value is not subscriptable by str"))

/-- Python len(): defined for strings, lists and dicts. -/
def pyLen (v : Val) : Except PyErr Nat :=
  match v with
  | .vstr s => .ok s.length
  | .vlist xs => .ok xs.length
  | .vdict kvs => .ok kvs.length
  | _ => .error (.typeError ("object has no len"))

/-- Python iteration: list elements, string characters, dict keys. -/
def pyIter (v : Val) : Except PyErr (List Val) :=
  match v with
  | .vlist xs => .ok xs
  | .vstr s => .ok (s.data.map (fun c => .vstr ⟨[c]⟩))
  | .vdict kvs => .ok (kvs.map (fun kv => .vstr kv.1))
  | _ => .error (.typeError ("object is not iterable"))

/-- The row loop of _validate_stacked_bar_data: each year entry must have
the same length as categories (the error text is abbreviated here). -/
def checkRows (categories : Val) : List Val → Except PyErr Unit
  | [] => .ok ()
  | row :: rest =>
    match pyLen row with
    | .error e => .error e
    | .ok lr =>
      match pyLen categories with
      | .error e => .error e
      | .ok lc =>
        if lr ≠ lc then
          .error (.valueError
            ("Each year data must have same length as categories"))
        else checkRows categories rest

/-- _validate_stacked_bar_data from src/utils/text_utils.py. -/
def _validate_stacked_bar_data (gd : Val) : Except PyErr Unit :=
  match pyContains gd "years" with
  | .error e => .error e
  | .ok false => .error (.valueError ("Missing required field: graph.data.years"))
  | .ok true =>
  match pyContains gd "categories" with
  | .error e => .error e
  | .ok false => .error (.valueError ("Missing required field: graph.data.categories"))
  | .ok true =>
  match pyContains gd "values" with
  | .error e => .error e
  | .ok false => .error (.valueError ("Missing required field: graph.data.values"))
  | .ok true =>
  match pyGetItem gd "years" with
  | .error e => .error e
  | .ok years =>
  match pyGetItem gd "categories" with
  | .error e => .error e
  | .ok categories =>
  match pyGetItem gd "values" with
  | .error e => .error e
  | .ok values =>
  match pyLen values with
  | .error e => .error e
  | .ok lv =>
  match pyLen years with
  | .error e => .error e
  | .ok ly =>
  if lv ≠ ly then
    .error (.valueError
      ("graph.data.values must have same length as graph.data.years"))
  else
    match pyIter values with
    | .error e => .error e
    | .ok rows => checkRows categories rows

/-- _validate_linear_data from src/utils/text_utils.py (line, area and bar
charts). -/
def _validate_linear_data (gd : Val) : Except PyErr Unit :=
  match pyContains gd "labels" with
  | .error e => .error e
  | .ok false => .error (.valueError ("Missing required field: graph.data.labels"))
  | .ok true =>
  match pyContains gd "values" with
  | .error e => .error e
  | .ok false => .error (.valueError ("Missing required field: graph.data.values"))
  | .ok true =>
  match pyGetItem gd "labels" with
  | .error e => .error e
  | .ok labels =>
  match pyGetItem gd "values" with
  | .error e => .error e
  | .ok values =>
  match pyLen labels with
  | .error e => .error e
  | .ok ll =>
  match pyLen values with
  | .error e => .error e
  | .ok lv =>
  if ll ≠ lv then
    .error (.valueError
      ("graph.data.labels and graph.data.values must have same length"))
  else .ok ()

/-- _validate_pie_data from src/utils/text_utils.py: the source duplicates
the body of the linear validator. -/
def _validate_pie_data (gd : Val) : Except PyErr Unit :=
  match pyContains gd "labels" with
  | .error e => .error e
  | .ok false => .error (.valueError ("Missing required field: graph.data.labels"))
  | .ok true =>
  match pyContains gd "values" with
  | .error e => .error e
  | .ok false => .error (.valueError ("Missing required field: graph.data.values"))
  | .ok true =>
  match pyGetItem gd "labels" with
  | .error e => .error e
  | .ok labels =>
  match pyGetItem gd "values" with
  | .error e => .error e
  | .ok values =>
  match pyLen labels with
  | .error e => .error e
  | .ok ll =>
  match pyLen values with
  | .error e => .error e
  | .ok lv =>
  if ll ≠ lv then
    .error (.valueError
      ("graph.data.labels and graph.data.values must have same length"))
  else .ok ()

/-- Dispatch on graph type, mirroring the if chain of validate_config; a
non-string type compares unequal to every tag, so it falls into the
unsupported branch just as in Python. -/
def dispatchValidate (gtype gdata : Val) : Except PyErr Unit :=
  match gtype with
  | .vstr s =>
    if s = "stacked_bar" then _validate_stacked_bar_data gdata
    else if s = "line" ∨ s = "area" ∨ s = "bar" then
      _validate_linear_data gdata
    else if s = "pie" then _validate_pie_data gdata
    else .error (.valueError ("Unsupported chart type: " ++ s ++
      ". Supported types: stacked_bar, line, pie, area, bar"))
  | _ => .error (.valueError
      ("Unsupported chart type. Supported types: stacked_bar, line, pie, area, bar"))

/-- validate_config from src/utils/text_utils.py: requires title and graph
keys, graph.type and graph.data, then dispatches on the chart type.  The
validator only reads the config and returns nothing, so the config is used
by the caller exactly as it was passed in. -/
def validate_config (config : Val) : Except PyErr Unit :=
  match pyContains config "title" with
  | .error e => .error e
  | .ok false => .error (.valueError ("Missing required field: title"))
  | .ok true =>
  match pyContains config "graph" with
  | .error e => .error e
  | .ok false => .error (.valueError ("Missing required field: graph"))
  | .ok true =>
  match pyGetItem config "graph" with
  | .error e => .error e
  | .ok graph =>
  match pyContains graph "type" with
  | .error e => .error e
  | .ok false => .error (.valueError ("Missing required field: graph.type"))
  | .ok true =>
  match pyContains graph "data" with
  | .error e => .error e
  | .ok false => .error (.valueError ("Missing required field: graph.data"))
  | .ok true =>
  match pyGetItem graph "type" with
  | .error e => .error e
  | .ok gtype =>
  match pyGetItem graph "data" with
  | .error e => .error e
  | .ok gdata => dispatchValidate gtype gdata

/-- Modelled from the spec, sections 3 and 4.1: the configs the validator
must accept, namely those with title and graph, graph.type one of the five
tags, graph.data present, the per-type required fields present, and the
per-type length invariants satisfied. -/
def specLinearOK (d : List (String × Val)) : Bool :=
  match dictLookup d "labels", dictLookup d "values" with
  | some (.vlist ls), some (.vlist vs) => ls.length == vs.length
  | _, _ => false

/-- Modelled from the spec, section 3: stacked_bar structural invariants:
years, categories and values present, len(values) = len(years), and every
row of values has the length of categories. -/
def specStackedOK (d : List (String × Val)) : Bool :=
  match dictLookup d "years", dictLookup d "categories",
      dictLookup d "values" with
  | some (.vlist ys), some (.vlist cs), some (.vlist vss) =>
    (vss.length == ys.length) &&
    vss.all (fun r => match r with
      | .vlist row => row.length == cs.length
      | _ => false)
  | _, _, _ => false

/-- Modelled from the spec, section 4.1: acceptance condition of the
validator over a whole config. -/
def specValidOK (config : Val) : Bool :=
  match config with
  | .vdict kvs =>
    (dictLookup kvs "title").isSome &&
    (match dictLookup kvs "graph" with
     | some (.vdict g) =>
       (match dictLookup g "type", dictLookup g "data" with
        | some (.vstr s), some (.vdict d) =>
          if s = "stacked_bar" then specStackedOK d
          else if s = "line" ∨ s = "area" ∨ s = "bar" then specLinearOK d
          else if s = "pie" then specLinearOK d
          else false
        | _, _ => false)
     | _ => false)
  | _ => false

/-- Example stacked_bar data dict used as concrete witness input. -/
def exampleStackedData : List (String × Val) :=
  [("years", .vlist [.vstr "2020", .vstr "2021"]),
   ("categories", .vlist [.vstr "cbd oil", .vstr "others"]),
   ("values", .vlist [.vlist [.vnum 1, .vnum 2],
                      .vlist [.vnum 3, .vnum 4]])]

/-- Example graph dict used as concrete witness input. -/
def exampleStackedGraph : List (String × Val) :=
  [("type", .vstr "stacked_bar"), ("data", .vdict exampleStackedData)]

/-- Example config used as concrete witness input. -/
def exampleStackedConfig : List (String × Val) :=
  [("title", .vstr "CBD Market Size"), ("graph", .vdict exampleStackedGraph)]

/-! ## Save-time conversion and pipeline metadata (src/core/app.py,
src/utils/ui_utils.py, src/ui/dashboard_renderer.py) -/

/-- One RGBA pixel, channel values in 0..255. -/
structure RGBAPixel where
  r : Nat
  g : Nat
  b : Nat
  a : Nat
deriving DecidableEq

/-- PIL Image.convert from RGBA to RGB at pixel level, the conversion the
save step of ChartGeneratorApp.generate_chart performs: the alpha band is
discarded and the color bands are kept unchanged (PIL convert does not
composite against any background). -/
def pilConvertRGBAtoRGBPixel (p : RGBAPixel) : Nat × Nat × Nat :=
  (p.r, p.g, p.b)

/-- Modelled from the spec, section 4.5: flattening a pixel against a
white background, i.e. alpha-compositing each color band over 255. -/
def flattenWhitePixel (p : RGBAPixel) : Nat × Nat × Nat :=
  ((p.r * p.a + 255 * (255 - p.a)) / 255,
   (p.g * p.a + 255 * (255 - p.a)) / 255,
   (p.b * p.a + 255 * (255 - p.a)) / 255)

/-- create_gradient_background from src/utils/ui_utils.py: a new RGB image
hardcoded to 1600 x 900, painted line by line. -/
def create_gradient_background : PILImage := ⟨"RGB", 1600, 900⟩

/-- The painting steps of DashboardRenderer.render_dashboard at the
metadata level: paste and text drawing mutate pixels of the canvas in
place and return the same raster, so mode and size are unchanged. -/
def _add_main_card_meta (canvas : PILImage) : PILImage := canvas

/-- Logo paste, metadata level (see _add_logo below for control flow). -/
def _add_logo_meta (canvas : PILImage) : PILImage := canvas

/-- Title and subtitle drawing, metadata level. -/
def _add_title_and_subtitle_meta (canvas : PILImage) : PILImage := canvas

/-- Chart paste (the pasted raster is add_chart_image of the factory
output), metadata level. -/
def _add_chart_meta (canvas : PILImage) : PILImage := canvas

/-- Footer drawing, metadata level. -/
def _add_footer_meta (canvas : PILImage) : PILImage := canvas

/-- render_dashboard from src/ui/dashboard_renderer.py at the metadata
level: gradient background, conversion to RGBA, then the five in-place
painting steps. -/
def render_dashboard_meta : PILImage :=
  _add_footer_meta (_add_chart_meta (_add_title_and_subtitle_meta
    (_add_logo_meta (_add_main_card_meta
      (pilConvert create_gradient_background "RGBA")))))

/-- The raster persisted by ChartGeneratorApp.generate_chart: the
accumulated RGBA canvas converted back to RGB just before saving
(src/core/app.py line 39). -/
def generate_chart_saved_image : PILImage :=
  pilConvert render_dashboard_meta "RGB"

/-! ## Logo loading (src/utils/ui_utils.py) -/

/-- load_and_resize_logo from src/utils/ui_utils.py with the filesystem
and the decoder abstracted: fsExists is os.path.exists, decodeImg is
Image.open and returns none when opening or decoding raises (the source
catches the exception, prints a warning and returns None).  The default
max height is int(900 * 0.15) = 135; the aspect-preserving resize computes
the new width by float multiplication, modelled as exact floor division. -/
def load_and_resize_logo (fsExists : String → Bool)
    (decodeImg : String → Option PILImage) (logo_path : String) :
    Option PILImage :=
  if logo_path = "" || !fsExists logo_path then none
  else
    match decodeImg logo_path with
    | none => none
    | some logo =>
      if logo.mode ≠ "RGBA" then
        if (pilConvert logo "RGBA").height > 135 then
          some (pilResize (pilConvert logo "RGBA")
            ((pilConvert logo "RGBA").width * 135 /
              (pilConvert logo "RGBA").height) 135)
        else some (pilConvert logo "RGBA")
      else
        if logo.height > 135 then
          some (pilResize logo (logo.width * 135 / logo.height) 135)
        else some logo

/-- DashboardRenderer._add_logo with the paste operation abstracted: the
logo is pasted at the layout logo position only when a truthy logo_path is
configured and the logo loads; otherwise the canvas is returned as is. -/
def _add_logo (paste : PILImage → PILImage → Nat × Nat → PILImage)
    (fsExists : String → Bool) (decodeImg : String → Option PILImage)
    (canvas : PILImage) (logo_path : Option String) : PILImage :=
  match logo_path with
  | none => canvas
  | some p =>
    if p = "" then canvas
    else
      match load_and_resize_logo fsExists decodeImg p with
      | none => canvas
      | some logo =>
        paste canvas logo (calculate_layout_positions.logo_x,
          calculate_layout_positions.logo_y)

/-! ## Theorems -/

theorem charToNat_ofNat {n : Nat} (h : n < 55296) :
    (Char.ofNat n).toNat = n := by
  rw [Char.ofNat, dif_pos (Or.inl h)]
  simp [Char.ofNatAux, Char.toNat, UInt32.toNat,
    Nat.mod_eq_of_lt (by omega : n < 4294967296)]

theorem slugChar_ranges {c : Char} (h : slugChar c = true) :
    (97 ≤ c.toNat ∧ c.toNat ≤ 122) ∨ (48 ≤ c.toNat ∧ c.toNat ≤ 57) ∨
    c.toNat = 45 := by
  simp only [slugChar, Bool.or_eq_true, Bool.and_eq_true, decide_eq_true_eq,
    beq_iff_eq] at h
  rcases h with (h | h) | h
  · exact Or.inl h
  · exact Or.inr (Or.inl h)
  · exact Or.inr (Or.inr (by rw [h]; rfl))

theorem slugChar_not_space {c : Char} (h : slugChar c = true) :
    isPySpace c = false := by
  have ht := slugChar_ranges h
  simp only [isPySpace, decide_eq_false_iff_not, pySpaceCodes, List.mem_cons,
    List.not_mem_nil, or_false]
  omega

theorem mem_of_mem_dropWhile {p : Char → Bool} {l : List Char} {c : Char}
    (h : c ∈ l.dropWhile p) : c ∈ l := by
  induction l with
  | nil => simpa using h
  | cons a as ih =>
    rw [List.dropWhile_cons] at h
    split at h
    · exact List.mem_cons_of_mem a (ih h)
    · exact h

theorem mem_of_mem_stripChars {l : List Char} {c : Char}
    (h : c ∈ stripChars l) : c ∈ l := by
  unfold stripChars at h
  rw [List.mem_reverse] at h
  have h1 := mem_of_mem_dropWhile h
  rw [List.mem_reverse] at h1
  exact mem_of_mem_dropWhile h1

theorem mem_collapseWs {c : Char} (b : Bool) (l : List Char)
    (h : c ∈ collapseWs b l) :
    c = '-' ∨ (c ∈ l ∧ isPySpace c = false) := by
  induction l generalizing b with
  | nil => simp [collapseWs] at h
  | cons a as ih =>
    simp only [collapseWs] at h
    split at h
    · next hs =>
      split at h
      · rcases ih true h with h1 | ⟨h2, h3⟩
        · exact Or.inl h1
        · exact Or.inr ⟨List.mem_cons_of_mem a h2, h3⟩
      · rcases List.mem_cons.mp h with h1 | h1
        · exact Or.inl h1
        · rcases ih true h1 with h2 | ⟨h3, h4⟩
          · exact Or.inl h2
          · exact Or.inr ⟨List.mem_cons_of_mem a h3, h4⟩
    · next hs =>
      rcases List.mem_cons.mp h with h1 | h1
      · rw [h1]
        exact Or.inr ⟨List.mem_cons_self a as, Bool.of_not_eq_true hs⟩
      · rcases ih false h1 with h2 | ⟨h3, h4⟩
        · exact Or.inl h2
        · exact Or.inr ⟨List.mem_cons_of_mem a h3, h4⟩

theorem keepChar_slugChar_pyLower {c : Char} (hk : keepChar c = true)
    (hs : isPySpace c = false) : slugChar (pyLower c) = true := by
  simp only [keepChar, Bool.or_eq_true] at hk
  rcases hk with (ha | hsp) | hd
  · simp only [isAsciiAlphanum, Bool.or_eq_true, Bool.and_eq_true,
      decide_eq_true_eq] at ha
    rcases ha with (h1 | h2) | h3
    · have he : pyLower c = c := by
        unfold pyLower
        rw [if_neg (by simp only [Bool.and_eq_true, decide_eq_true_eq]; omega)]
      rw [he]
      simp only [slugChar, Bool.or_eq_true, Bool.and_eq_true,
        decide_eq_true_eq]
      exact Or.inl (Or.inl h1)
    · have he : pyLower c = Char.ofNat (c.toNat + 32) := by
        unfold pyLower
        rw [if_pos (by simp only [Bool.and_eq_true, decide_eq_true_eq]; omega)]
      rw [he]
      have ht : (Char.ofNat (c.toNat + 32)).toNat = c.toNat + 32 :=
        charToNat_ofNat (by omega)
      simp only [slugChar, Bool.or_eq_true, Bool.and_eq_true,
        decide_eq_true_eq, ht]
      exact Or.inl (Or.inl (by omega))
    · have he : pyLower c = c := by
        unfold pyLower
        rw [if_neg (by simp only [Bool.and_eq_true, decide_eq_true_eq]; omega)]
      rw [he]
      simp only [slugChar, Bool.or_eq_true, Bool.and_eq_true,
        decide_eq_true_eq]
      exact Or.inl (Or.inr h3)
  · rw [hsp] at hs
    exact absurd hs (by simp)
  · have hc : c = '-' := by simpa using hd
    subst hc
    decide

theorem good_of_mem_slugify (s : String) {c : Char}
    (h : c ∈ (slugify s).data) : slugChar c = true := by
  simp only [slugify] at h
  rw [List.mem_map] at h
  obtain ⟨c0, hc0, rfl⟩ := h
  rcases mem_collapseWs false _ hc0 with h1 | ⟨h2, h3⟩
  · subst h1
    decide
  · have hk : keepChar c0 = true :=
      List.of_mem_filter (mem_of_mem_stripChars h2)
    exact keepChar_slugChar_pyLower hk h3

theorem dropWhile_eq_self_of_no_space {l : List Char}
    (h : ∀ c ∈ l, isPySpace c = false) : l.dropWhile isPySpace = l := by
  cases l with
  | nil => rfl
  | cons a as =>
    rw [List.dropWhile_cons,
      if_neg (by simp [h a (List.mem_cons_self a as)])]

theorem stripChars_eq_self {l : List Char}
    (h : ∀ c ∈ l, isPySpace c = false) : stripChars l = l := by
  unfold stripChars
  rw [dropWhile_eq_self_of_no_space h,
    dropWhile_eq_self_of_no_space
      (fun c hc => h c (List.mem_reverse.mp hc)),
    List.reverse_reverse]

theorem collapseWs_eq_self {l : List Char} (b : Bool)
    (h : ∀ c ∈ l, isPySpace c = false) : collapseWs b l = l := by
  induction l generalizing b with
  | nil => rfl
  | cons a as ih =>
    simp only [collapseWs]
    rw [if_neg (by simp [h a (List.mem_cons_self a as)]),
      ih false (fun c hc => h c (List.mem_cons_of_mem a hc))]

theorem keepChar_of_slugChar {c : Char} (h : slugChar c = true) :
    keepChar c = true := by
  simp only [slugChar, Bool.or_eq_true, Bool.and_eq_true, decide_eq_true_eq,
    beq_iff_eq] at h
  simp only [keepChar, isAsciiAlphanum, Bool.or_eq_true, Bool.and_eq_true,
    decide_eq_true_eq, beq_iff_eq]
  tauto

theorem pyLower_eq_self_of_slugChar {c : Char} (h : slugChar c = true) :
    pyLower c = c := by
  simp only [slugChar, Bool.or_eq_true, Bool.and_eq_true, decide_eq_true_eq,
    beq_iff_eq] at h
  rcases h with (h | h) | h
  · unfold pyLower
    rw [if_neg (by simp only [Bool.and_eq_true, decide_eq_true_eq]; omega)]
  · unfold pyLower
    rw [if_neg (by simp only [Bool.and_eq_true, decide_eq_true_eq]; omega)]
  · subst h
    decide

theorem map_pyLower_eq_self {l : List Char}
    (h : ∀ c ∈ l, slugChar c = true) : l.map pyLower = l := by
  induction l with
  | nil => rfl
  | cons a as ih =>
    simp only [List.map_cons]
    rw [pyLower_eq_self_of_slugChar (h a (List.mem_cons_self a as)),
      ih (fun c hc => h c (List.mem_cons_of_mem a hc))]

theorem slugify_eq_self_of_good {l : List Char}
    (h : ∀ c ∈ l, slugChar c = true) : slugify ⟨l⟩ = ⟨l⟩ := by
  have hns : ∀ c ∈ l, isPySpace c = false :=
    fun c hc => slugChar_not_space (h c hc)
  unfold slugify
  rw [show (String.mk l).data = l from rfl,
    List.filter_eq_self.mpr (fun a ha => keepChar_of_slugChar (h a ha)),
    stripChars_eq_self hns, collapseWs_eq_self false hns,
    map_pyLower_eq_self h]

/-- C6: slugify is idempotent on every string (one application already
lowercases, deletes the characters outside letters, digits, whitespace and
hyphens, and turns whitespace runs into single hyphens, so a second
application changes nothing), and on the concrete title
"CBD Market!! 2024" it yields "cbd-market-2024". -/
theorem slugify_idempotent :
    (∀ s : String, slugify (slugify s) = slugify s) ∧
    slugify ("CBD Market!! 2024") = ("cbd-market-2024") := by
  constructor
  · intro s
    exact slugify_eq_self_of_good (fun c hc => good_of_mem_slugify s hc)
  · decide

theorem dropWhile_all_space {l : List Char}
    (h : ∀ c ∈ l, isPySpace c = true) : l.dropWhile isPySpace = [] := by
  induction l with
  | nil => rfl
  | cons a as ih =>
    rw [List.dropWhile_cons, if_pos (h a (List.mem_cons_self a as))]
    exact ih (fun c hc => h c (List.mem_cons_of_mem a hc))

theorem slugify_empty_of_no_alnum {title : String}
    (h : ∀ c ∈ title.data, isAsciiAlphanum c = false ∧ (c == '-') = false) :
    slugify title = "" := by
  have hsp : ∀ c ∈ title.data.filter keepChar, isPySpace c = true := by
    intro c hc
    have hk := List.of_mem_filter hc
    have hm := List.mem_of_mem_filter hc
    simp only [keepChar, Bool.or_eq_true] at hk
    rcases hk with (hk | hk) | hk
    · rw [(h c hm).1] at hk
      exact absurd hk (by simp)
    · exact hk
    · rw [(h c hm).2] at hk
      exact absurd hk (by simp)
  unfold slugify stripChars
  rw [dropWhile_all_space hsp]
  rfl

theorem stringDataInj {a b : String} (h : a.data = b.data) : a = b := by
  cases a
  cases b
  exact congrArg String.mk h

theorem stringAppend_cancel_left {a b c : String} (h : a ++ b = a ++ c) :
    b = c := by
  apply stringDataInj
  have hd := congrArg String.data h
  simp only [String.data_append] at hd
  exact List.append_cancel_left hd

theorem stringAppend_cancel_right {a b c : String} (h : a ++ c = b ++ c) :
    a = b := by
  apply stringDataInj
  have hd := congrArg String.data h
  simp only [String.data_append] at hd
  exact List.append_cancel_right hd

theorem toDigitsRev_eq_digits : ∀ fuel n, n ≤ fuel →
    toDigitsRev fuel n = Nat.digits 10 n := by
  intro fuel
  induction fuel with
  | zero =>
    intro n hn
    have hz : n = 0 := by omega
    subst hz
    simp [toDigitsRev]
  | succ f ih =>
    intro n hn
    by_cases h0 : n = 0
    · subst h0
      simp [toDigitsRev]
    · rw [show toDigitsRev (f + 1) n =
          if n = 0 then [] else n % 10 :: toDigitsRev f (n / 10) from rfl,
        if_neg h0,
        Nat.digits_def' (by norm_num : (1 : ℕ) < 10) (Nat.pos_of_ne_zero h0)]
      congr 1
      have hdiv : n / 10 < n :=
        Nat.div_lt_self (Nat.pos_of_ne_zero h0) (by norm_num)
      exact ih (n / 10) (by omega)

theorem digitChar_inj : ∀ a, a < 10 → ∀ b, b < 10 →
    Char.ofNat (48 + a) = Char.ofNat (48 + b) → a = b := by decide

theorem map_digitChar_inj : ∀ (l1 l2 : List Nat), (∀ x ∈ l1, x < 10) →
    (∀ x ∈ l2, x < 10) →
    l1.map (fun d => Char.ofNat (48 + d)) =
      l2.map (fun d => Char.ofNat (48 + d)) → l1 = l2 := by
  intro l1
  induction l1 with
  | nil =>
    intro l2 _ _ h
    cases l2 with
    | nil => rfl
    | cons b bs => simp at h
  | cons a as ih =>
    intro l2 h1 h2 h
    cases l2 with
    | nil => simp at h
    | cons b bs =>
      simp only [List.map_cons, List.cons.injEq] at h
      have ha := digitChar_inj a (h1 a (List.mem_cons_self a as)) b
        (h2 b (List.mem_cons_self b bs)) h.1
      rw [ha, ih bs (fun x hx => h1 x (List.mem_cons_of_mem a hx))
        (fun x hx => h2 x (List.mem_cons_of_mem b hx)) h.2]

theorem natRepr_inj {m n : Nat} (hm : 0 < m) (hn : 0 < n)
    (h : natRepr m = natRepr n) : m = n := by
  unfold natRepr at h
  rw [if_neg (by omega), if_neg (by omega)] at h
  have hdata := congrArg String.data h
  simp only at hdata
  rw [toDigitsRev_eq_digits m m le_rfl, toDigitsRev_eq_digits n n le_rfl]
    at hdata
  have hrev := map_digitChar_inj _ _
    (fun x hx => Nat.digits_lt_base (by norm_num) (List.mem_reverse.mp hx))
    (fun x hx => Nat.digits_lt_base (by norm_num) (List.mem_reverse.mp hx))
    hdata
  have hdig : Nat.digits 10 m = Nat.digits 10 n := by
    have hc := congrArg List.reverse hrev
    simpa using hc
  calc m = Nat.ofDigits 10 (Nat.digits 10 m) := (Nat.ofDigits_digits 10 m).symm
    _ = Nat.ofDigits 10 (Nat.digits 10 n) := by rw [hdig]
    _ = n := Nat.ofDigits_digits 10 n

theorem natRepr_length_pos (n : Nat) : 0 < (natRepr n).length := by
  unfold natRepr
  split
  · decide
  · next h0 =>
    show 0 < ((toDigitsRev n n).reverse.map
      (fun d => Char.ofNat (48 + d))).length
    rw [toDigitsRev_eq_digits n n le_rfl, List.length_map,
      List.length_reverse]
    exact List.length_pos.mpr (Nat.digits_ne_nil_iff_ne_zero.mpr h0)

theorem nameOf_inj (base : String) : Function.Injective (nameOf base) := by
  intro j k h
  match j, k with
  | 0, 0 => rfl
  | 0, k + 1 =>
    exfalso
    have hl := congrArg String.length h
    simp only [nameOf, String.length_append] at hl
    have := natRepr_length_pos (k + 1)
    omega
  | j + 1, 0 =>
    exfalso
    have hl := congrArg String.length h
    simp only [nameOf, String.length_append] at hl
    have := natRepr_length_pos (j + 1)
    omega
  | j + 1, k + 1 =>
    simp only [nameOf] at h
    have h1 := stringAppend_cancel_right h
    have h2 := stringAppend_cancel_left h1
    have h3 := natRepr_inj (by omega) (by omega) h2
    omega

theorem nameOf_head_slash (base : String) (k : Nat) :
    ((nameOf base k).data.head? = some '/') ↔
    (base.data.head? = some '/') := by
  cases k with
  | zero =>
    show ((base ++ ".png").data.head? = some '/') ↔ _
    rw [String.data_append, List.head?_append]
    cases hb : base.data.head? with
    | none => simp
    | some c => simp
  | succ j =>
    show ((base ++ "-" ++ natRepr (j + 1) ++ ".png").data.head? = some '/')
      ↔ _
    simp only [String.data_append, List.append_assoc, List.head?_append]
    cases hb : base.data.head? with
    | none => simp
    | some c => simp

theorem candidatePath_inj (dir base : String) :
    Function.Injective (candidatePath dir base) := by
  intro j k h
  apply nameOf_inj base
  unfold candidatePath pathJoin at h
  by_cases habs : (nameOf base j).data.head? = some '/'
  · have habs2 : (nameOf base k).data.head? = some '/' :=
      (nameOf_head_slash base k).mpr ((nameOf_head_slash base j).mp habs)
    rw [if_pos habs, if_pos habs2] at h
    exact h
  · have habs2 : ¬ (nameOf base k).data.head? = some '/' := by
      intro hc
      exact habs
        ((nameOf_head_slash base j).mpr ((nameOf_head_slash base k).mp hc))
    rw [if_neg habs, if_neg habs2] at h
    by_cases hdir : dir = ""
    · rw [if_pos hdir, if_pos hdir] at h
      exact h
    · rw [if_neg hdir, if_neg hdir] at h
      by_cases hlast : dir.data.getLast? = some '/'
      · rw [if_pos hlast, if_pos hlast] at h
        exact stringAppend_cancel_left h
      · rw [if_neg hlast, if_neg hlast] at h
        exact stringAppend_cancel_left h

theorem gufLoop_spec (ex : List String) (dir base : String) :
    ∀ fuel k, (∃ j, j < fuel ∧ candidatePath dir base (k + j) ∉ ex) →
    ∃ j, gufLoop ex dir base fuel k = candidatePath dir base (k + j) ∧
      candidatePath dir base (k + j) ∉ ex ∧
      ∀ i < j, candidatePath dir base (k + i) ∈ ex := by
  intro fuel
  induction fuel with
  | zero =>
    rintro k ⟨j, hj, _⟩
    omega
  | succ f ih =>
    rintro k ⟨j, hj, hfree⟩
    by_cases hk : candidatePath dir base k ∈ ex
    · have hj0 : j ≠ 0 := by
        rintro rfl
        rw [Nat.add_zero] at hfree
        exact hfree hk
      have hex : ∃ j2, j2 < f ∧ candidatePath dir base (k + 1 + j2) ∉ ex := by
        refine ⟨j - 1, by omega, ?_⟩
        rw [show k + 1 + (j - 1) = k + j by omega]
        exact hfree
      obtain ⟨j2, heq, hfree2, hmin⟩ := ih (k + 1) hex
      refine ⟨j2 + 1, ?_, ?_, ?_⟩
      · simp only [gufLoop, if_pos hk]
        rw [heq]
        congr 1
        omega
      · rw [show k + (j2 + 1) = k + 1 + j2 by omega]
        exact hfree2
      · intro i hi
        cases i with
        | zero =>
          rw [Nat.add_zero]
          exact hk
        | succ i2 =>
          have hmem := hmin i2 (by omega)
          rw [show k + (i2 + 1) = k + 1 + i2 by omega]
          exact hmem
    · refine ⟨0, ?_, ?_, by omega⟩
      · simp only [gufLoop, if_neg hk]
        rw [Nat.add_zero]
      · rw [Nat.add_zero]
        exact hk

theorem exists_free_candidate (ex : List String) (dir base : String) :
    ∃ j, j < ex.length + 1 ∧ candidatePath dir base j ∉ ex := by
  by_contra hc
  push_neg at hc
  have hsub : (Finset.range (ex.length + 1)).image (candidatePath dir base)
      ⊆ ex.toFinset := by
    intro x hx
    rw [Finset.mem_image] at hx
    obtain ⟨j, hj, rfl⟩ := hx
    rw [List.mem_toFinset]
    exact hc j (Finset.mem_range.mp hj)
  have hcard := Finset.card_le_card hsub
  rw [Finset.card_image_of_injective _ (candidatePath_inj dir base),
    Finset.card_range] at hcard
  have hle := ex.toFinset_card_le
  omega

/-- C5: generate_unique_filename returns the first candidate path
dir/base.png, dir/base-1.png, dir/base-2.png, ... that does not already
exist: when dir/base.png is free it is returned as is, and in general the
returned path is the candidate of the least index that is free, so the
result never names an existing file and a second chart with the same title
gets the -1 suffix instead of overwriting the first. -/
theorem generate_unique_filename_spec (ex : List String) (dir base : String) :
    (candidatePath dir base 0 ∉ ex →
      generate_unique_filename ex dir base = candidatePath dir base 0) ∧
    ∃ j, generate_unique_filename ex dir base = candidatePath dir base j ∧
      candidatePath dir base j ∉ ex ∧
      ∀ i < j, candidatePath dir base i ∈ ex := by
  obtain ⟨j0, hj0, hfree0⟩ := exists_free_candidate ex dir base
  obtain ⟨j, heq, hfree, hmin⟩ := gufLoop_spec ex dir base (ex.length + 1) 0
    ⟨j0, hj0, by simpa using hfree0⟩
  simp only [Nat.zero_add] at heq hfree hmin
  have hgen : generate_unique_filename ex dir base =
      gufLoop ex dir base (ex.length + 1) 0 := rfl
  constructor
  · intro h0
    rcases Nat.eq_zero_or_pos j with rfl | hj
    · rw [hgen]
      exact heq
    · exact absurd (hmin 0 hj) h0
  · exact ⟨j, by rw [hgen]; exact heq, hfree, hmin⟩

/-- Witness for C5: in an empty output directory the slug of the running
example gets the plain .png name; with that file already present, the next
generation gets the -1 suffix. -/
theorem generate_unique_filename_witness :
    generate_unique_filename [] ("output") ("cbd-market-2024")
      = ("output/cbd-market-2024.png") ∧
    generate_unique_filename [("output/cbd-market-2024.png")] ("output")
      ("cbd-market-2024") = ("output/cbd-market-2024-1.png") := by
  constructor
  · have h := (generate_unique_filename_spec [] ("output")
      ("cbd-market-2024")).1 (by simp)
    rw [h]
    rfl
  · rfl

theorem checkRows_ok_iff (cs : List Val) (rows : List Val)
    (hr : ∀ r ∈ rows, ∃ row, r = Val.vlist row) :
    checkRows (.vlist cs) rows = .ok () ↔
      rows.all (fun r => match r with
        | .vlist row => row.length == cs.length
        | _ => false) = true := by
  induction rows with
  | nil => simp [checkRows]
  | cons r rest ih =>
    obtain ⟨row, rfl⟩ := hr r (List.mem_cons_self r rest)
    have hrest := ih (fun x hx => hr x (List.mem_cons_of_mem _ hx))
    by_cases hlen : row.length = cs.length
    · simp [checkRows, pyLen, hlen, hrest]
    · simp [checkRows, pyLen, hlen]

theorem validate_stacked_ok_iff (d : List (String × Val))
    (hf : ∀ k v, (k = "years" ∨ k = "categories" ∨ k = "values") →
      dictLookup d k = some v → ∃ xs, v = Val.vlist xs)
    (hr : ∀ xs r, dictLookup d "values" = some (.vlist xs) → r ∈ xs →
      ∃ row, r = Val.vlist row) :
    _validate_stacked_bar_data (.vdict d) = .ok () ↔
      specStackedOK d = true := by
  cases hy : dictLookup d "years" with
  | none => simp [_validate_stacked_bar_data, pyContains, specStackedOK, hy]
  | some yv =>
  obtain ⟨ys, rfl⟩ := hf "years" yv (Or.inl rfl) hy
  cases hc : dictLookup d "categories" with
  | none => simp [_validate_stacked_bar_data, pyContains, specStackedOK, hy, hc]
  | some cv =>
  obtain ⟨cs, rfl⟩ := hf "categories" cv (Or.inr (Or.inl rfl)) hc
  cases hv : dictLookup d "values" with
  | none => simp [_validate_stacked_bar_data, pyContains, specStackedOK, hy, hc, hv]
  | some vv =>
  obtain ⟨vss, rfl⟩ := hf "values" vv (Or.inr (Or.inr rfl)) hv
  have hrows := checkRows_ok_iff cs vss (fun r hrr => hr vss r hv hrr)
  by_cases hlen : vss.length = ys.length
  · simp only [_validate_stacked_bar_data, pyContains, pyGetItem, pyLen,
      pyIter, hy, hc, hv, specStackedOK, Option.isSome_some, hlen]
    simp [hrows]
  · simp [_validate_stacked_bar_data, pyContains, pyGetItem, pyLen,
      pyIter, hy, hc, hv, specStackedOK, hlen]

theorem validate_linear_ok_iff (d : List (String × Val))
    (hf : ∀ k v, (k = "labels" ∨ k = "values") →
      dictLookup d k = some v → ∃ xs, v = Val.vlist xs) :
    _validate_linear_data (.vdict d) = .ok () ↔ specLinearOK d = true := by
  cases hl : dictLookup d "labels" with
  | none => simp [_validate_linear_data, pyContains, specLinearOK, hl]
  | some lv =>
  obtain ⟨ls, rfl⟩ := hf "labels" lv (Or.inl rfl) hl
  cases hv : dictLookup d "values" with
  | none => simp [_validate_linear_data, pyContains, specLinearOK, hl, hv]
  | some vv =>
  obtain ⟨vs, rfl⟩ := hf "values" vv (Or.inr rfl) hv
  by_cases hlen : ls.length = vs.length
  · simp [_validate_linear_data, pyContains, pyGetItem, pyLen, hl, hv,
      specLinearOK, hlen]
  · simp [_validate_linear_data, pyContains, pyGetItem, pyLen, hl, hv,
      specLinearOK, hlen]

theorem validate_pie_ok_iff (d : List (String × Val))
    (hf : ∀ k v, (k = "labels" ∨ k = "values") →
      dictLookup d k = some v → ∃ xs, v = Val.vlist xs) :
    _validate_pie_data (.vdict d) = .ok () ↔ specLinearOK d = true := by
  cases hl : dictLookup d "labels" with
  | none => simp [_validate_pie_data, pyContains, specLinearOK, hl]
  | some lv =>
  obtain ⟨ls, rfl⟩ := hf "labels" lv (Or.inl rfl) hl
  cases hv : dictLookup d "values" with
  | none => simp [_validate_pie_data, pyContains, specLinearOK, hl, hv]
  | some vv =>
  obtain ⟨vs, rfl⟩ := hf "values" vv (Or.inr rfl) hv
  by_cases hlen : ls.length = vs.length
  · simp [_validate_pie_data, pyContains, pyGetItem, pyLen, hl, hv,
      specLinearOK, hlen]
  · simp [_validate_pie_data, pyContains, pyGetItem, pyLen, hl, hv,
      specLinearOK, hlen]

/-- C1: under the JSON schema shapes (a dict config whose graph is a dict,
whose graph.data is a dict, whose per-type data fields are lists and whose
stacked rows are lists), validate_config succeeds exactly on the configs
described by the spec: title and graph present, graph.type and graph.data
present, the type one of the five tags, the per-type required fields
present, and the length invariants satisfied; on every other config it
returns an error.  The validator is a pure reader: it returns Unit and the
config is used unchanged by the caller. -/
theorem validate_config_ok_iff (kvs : List (String × Val))
    (hg : ∀ v, dictLookup kvs "graph" = some v → ∃ g, v = Val.vdict g)
    (hd : ∀ g v, dictLookup kvs "graph" = some (.vdict g) →
      dictLookup g "data" = some v → ∃ d, v = Val.vdict d)
    (hf : ∀ g d k v, dictLookup kvs "graph" = some (.vdict g) →
      dictLookup g "data" = some (.vdict d) →
      (k = "years" ∨ k = "categories" ∨ k = "values" ∨ k = "labels") →
      dictLookup d k = some v → ∃ xs, v = Val.vlist xs)
    (hr : ∀ g d xs r, dictLookup kvs "graph" = some (.vdict g) →
      dictLookup g "data" = some (.vdict d) →
      dictLookup d "values" = some (.vlist xs) → r ∈ xs →
      ∃ row, r = Val.vlist row) :
    validate_config (.vdict kvs) = .ok () ↔
      specValidOK (.vdict kvs) = true := by
  cases ht : (dictLookup kvs "title").isSome with
  | false => simp [validate_config, pyContains, specValidOK, ht]
  | true =>
  cases hgr : dictLookup kvs "graph" with
  | none => simp [validate_config, pyContains, specValidOK, ht, hgr]
  | some gv =>
  obtain ⟨g, rfl⟩ := hg gv hgr
  cases hty : dictLookup g "type" with
  | none => simp [validate_config, pyContains, pyGetItem, specValidOK, ht,
      hgr, hty]
  | some tv =>
  cases hda : dictLookup g "data" with
  | none => simp [validate_config, pyContains, pyGetItem, specValidOK, ht,
      hgr, hty, hda]
  | some dv =>
  obtain ⟨d, rfl⟩ := hd g dv hgr hda
  have hbase : validate_config (.vdict kvs) = dispatchValidate tv (.vdict d) := by
    simp [validate_config, pyContains, pyGetItem, ht, hgr, hty, hda]
  rw [hbase]
  cases tv with
  | vstr s =>
    by_cases hs1 : s = "stacked_bar"
    · subst hs1
      have hiff := validate_stacked_ok_iff d
        (fun k v hk hkv => hf g d k v hgr hda
          (by rcases hk with h | h | h
              · exact Or.inl h
              · exact Or.inr (Or.inl h)
              · exact Or.inr (Or.inr (Or.inl h))) hkv)
        (fun xs r hxs hrr => hr g d xs r hgr hda hxs hrr)
      have hdisp : dispatchValidate (Val.vstr "stacked_bar") (Val.vdict d) =
          _validate_stacked_bar_data (Val.vdict d) := by
        simp [dispatchValidate]
      rw [hdisp, hiff]
      simp [specValidOK, ht, hgr, hty, hda]
    · by_cases hs2 : s = "line" ∨ s = "area" ∨ s = "bar"
      · have hiff := validate_linear_ok_iff d
          (fun k v hk hkv => hf g d k v hgr hda
            (by rcases hk with h | h
                · exact Or.inr (Or.inr (Or.inr h))
                · exact Or.inr (Or.inr (Or.inl h))) hkv)
        have hdisp : dispatchValidate (Val.vstr s) (Val.vdict d) =
            _validate_linear_data (Val.vdict d) := by
          simp only [dispatchValidate]
          rw [if_neg hs1, if_pos hs2]
        rw [hdisp, hiff]
        simp [specValidOK, ht, hgr, hty, hda, hs1, hs2]
      · by_cases hs3 : s = "pie"
        · subst hs3
          have hiff := validate_pie_ok_iff d
            (fun k v hk hkv => hf g d k v hgr hda
              (by rcases hk with h | h
                  · exact Or.inr (Or.inr (Or.inr h))
                  · exact Or.inr (Or.inr (Or.inl h))) hkv)
          have hdisp : dispatchValidate (Val.vstr "pie") (Val.vdict d) =
              _validate_pie_data (Val.vdict d) := by
            simp [dispatchValidate]
          rw [hdisp, hiff]
          simp [specValidOK, ht, hgr, hty, hda, hs1, hs2]
        · simp [dispatchValidate, if_neg hs1, if_neg hs2, if_neg hs3,
            specValidOK, ht, hgr, hty, hda, hs1, hs2, hs3]
  | vnum q => simp [dispatchValidate, specValidOK, ht, hgr, hty, hda]
  | vbool b => simp [dispatchValidate, specValidOK, ht, hgr, hty, hda]
  | vnull => simp [dispatchValidate, specValidOK, ht, hgr, hty, hda]
  | vlist xs => simp [dispatchValidate, specValidOK, ht, hgr, hty, hda]
  | vdict kvs2 => simp [dispatchValidate, specValidOK, ht, hgr, hty, hda]

/-- Witness for C1: the concrete well-shaped stacked_bar config satisfies
the spec acceptance condition and validate_config accepts it. -/
theorem validate_config_ok_iff_witness :
    validate_config (.vdict exampleStackedConfig) = .ok () := by
  have hg : ∀ v, dictLookup exampleStackedConfig "graph" = some v →
      ∃ g, v = Val.vdict g := by
    intro v hv
    exact ⟨exampleStackedGraph, (Option.some.inj hv).symm⟩
  have hd : ∀ g v, dictLookup exampleStackedConfig "graph" =
        some (.vdict g) → dictLookup g "data" = some v →
      ∃ d, v = Val.vdict d := by
    intro g v hg2 hv
    have hgg : Val.vdict exampleStackedGraph = Val.vdict g :=
      Option.some.inj hg2
    injection hgg with hgg2
    subst hgg2
    exact ⟨exampleStackedData, (Option.some.inj hv).symm⟩
  have hf : ∀ g d k v, dictLookup exampleStackedConfig "graph" =
        some (.vdict g) → dictLookup g "data" = some (.vdict d) →
      (k = "years" ∨ k = "categories" ∨ k = "values" ∨ k = "labels") →
      dictLookup d k = some v → ∃ xs, v = Val.vlist xs := by
    intro g d k v hg2 hd2 hk hkv
    have hgg : Val.vdict exampleStackedGraph = Val.vdict g :=
      Option.some.inj hg2
    injection hgg with hgg2
    subst hgg2
    have hdd : Val.vdict exampleStackedData = Val.vdict d :=
      Option.some.inj hd2
    injection hdd with hdd2
    subst hdd2
    rcases hk with rfl | rfl | rfl | rfl
    · exact ⟨_, (Option.some.inj hkv).symm⟩
    · exact ⟨_, (Option.some.inj hkv).symm⟩
    · exact ⟨_, (Option.some.inj hkv).symm⟩
    · simp [dictLookup, exampleStackedData] at hkv
  have hr : ∀ g d xs r, dictLookup exampleStackedConfig "graph" =
        some (.vdict g) → dictLookup g "data" = some (.vdict d) →
      dictLookup d "values" = some (.vlist xs) → r ∈ xs →
      ∃ row, r = Val.vlist row := by
    intro g d xs r hg2 hd2 hxs hrr
    have hgg : Val.vdict exampleStackedGraph = Val.vdict g :=
      Option.some.inj hg2
    injection hgg with hgg2
    subst hgg2
    have hdd : Val.vdict exampleStackedData = Val.vdict d :=
      Option.some.inj hd2
    injection hdd with hdd2
    subst hdd2
    have hxx : Val.vlist [Val.vlist [Val.vnum 1, Val.vnum 2],
        Val.vlist [Val.vnum 3, Val.vnum 4]] = Val.vlist xs :=
      Option.some.inj hxs
    injection hxx with hxx2
    subst hxx2
    rcases List.mem_cons.mp hrr with rfl | hrr2
    · exact ⟨_, rfl⟩
    · rcases List.mem_cons.mp hrr2 with rfl | hrr3
      · exact ⟨_, rfl⟩
      · simp at hrr3
  exact (validate_config_ok_iff exampleStackedConfig hg hd hf hr).mpr rfl

/-- C4 counterexample: at a fully transparent black pixel the save-step
conversion that the code performs (discard the alpha band) yields black,
while flattening against white as the claim states would yield white; the
two transformations therefore differ wherever the accumulated canvas
retains partial transparency, which the blurred card shadow produces. -/
theorem convert_not_flatten_white :
    pilConvertRGBAtoRGBPixel ⟨0, 0, 0, 0⟩ ≠ flattenWhitePixel ⟨0, 0, 0, 0⟩ := by
  decide

/-- C4 (amended): the persisted image is an RGB raster, no alpha band, of
exactly 1600 x 900 pixels, obtained from the accumulated RGBA raster by
discarding the alpha channel; on fully opaque pixels this coincides with
flattening against white. -/
theorem generate_chart_saved_image_spec (p : RGBAPixel) (ha : p.a = 255) :
    generate_chart_saved_image = ⟨"RGB", 1600, 900⟩ ∧
    pilConvertRGBAtoRGBPixel p = flattenWhitePixel p := by
  constructor
  · rfl
  · unfold pilConvertRGBAtoRGBPixel flattenWhitePixel
    rw [ha]
    norm_num

/-- Witness for C4 (amended) at a concrete opaque pixel. -/
theorem generate_chart_saved_image_spec_witness :
    generate_chart_saved_image = ⟨"RGB", 1600, 900⟩ ∧
    pilConvertRGBAtoRGBPixel ⟨10, 20, 30, 255⟩ =
      flattenWhitePixel ⟨10, 20, 30, 255⟩ :=
  generate_chart_saved_image_spec ⟨10, 20, 30, 255⟩ rfl

/-- C7: when no logo path is configured, or it is the empty string, or the
configured file does not exist, or it cannot be decoded, the logo step
returns the canvas unchanged, for every paste operation, filesystem state,
decoder and canvas; the model is total just as the source is, because the
load failure is caught inside load_and_resize_logo (a warning is printed)
and never aborts the pipeline. -/
theorem add_logo_pass_through
    (paste : PILImage → PILImage → Nat × Nat → PILImage)
    (fsExists : String → Bool) (decodeImg : String → Option PILImage)
    (canvas : PILImage) (lp : Option String)
    (h : lp = none ∨ lp = some "" ∨
      (∃ p, lp = some p ∧ fsExists p = false) ∨
      (∃ p, lp = some p ∧ decodeImg p = none)) :
    _add_logo paste fsExists decodeImg canvas lp = canvas := by
  rcases h with rfl | rfl | ⟨p, rfl, hfs⟩ | ⟨p, rfl, hdec⟩
  · rfl
  · rfl
  · simp only [_add_logo]
    by_cases hp : p = ""
    · rw [if_pos hp]
    · rw [if_neg hp]
      have hload : load_and_resize_logo fsExists decodeImg p = none := by
        unfold load_and_resize_logo
        rw [if_pos (by simp [hfs])]
      rw [hload]
  · simp only [_add_logo]
    by_cases hp : p = ""
    · rw [if_pos hp]
    · rw [if_neg hp]
      have hload : load_and_resize_logo fsExists decodeImg p = none := by
        unfold load_and_resize_logo
        by_cases hfs2 : fsExists p
        · rw [if_neg (by simp [hp, hfs2]), hdec]
        · rw [if_pos (by simp [hfs2])]
      rw [hload]

/-- Witness for C7: with no logo path configured, an arbitrary concrete
paste, filesystem and decoder, the canvas comes back unchanged. -/
theorem add_logo_pass_through_witness :
    _add_logo (fun c _ _ => c) (fun _ => false) (fun _ => none)
      ⟨"RGBA", 1600, 900⟩ none = ⟨"RGBA", 1600, 900⟩ :=
  add_logo_pass_through (fun c _ _ => c) (fun _ => false) (fun _ => none)
    ⟨"RGBA", 1600, 900⟩ none (Or.inl rfl)

/-- C10: a title with no ASCII letters, digits or hyphens slugifies to the
empty string (the first regex deletes every character outside the ASCII
alphanumeric, whitespace and hyphen class instead of lowercasing them, and
whatever whitespace remains is stripped), so in an empty output directory
the dashboard is written to output/.png, a second generation appends the
-1 suffix before .png, and validation accepts such a config since only the
presence of the title key, never its content, is checked. -/
theorem empty_slug_pipeline (title : String)
    (h : ∀ c ∈ title.data, isAsciiAlphanum c = false ∧ (c == '-') = false) :
    slugify title = "" ∧
    generate_unique_filename [] ("output") (slugify title)
      = ("output/.png") ∧
    generate_unique_filename [("output/.png")] ("output") (slugify title)
      = ("output/-1.png") ∧
    validate_config (.vdict [("title", .vstr title),
      ("graph", .vdict [("type", .vstr "pie"),
        ("data", .vdict [("labels", .vlist []),
          ("values", .vlist [])])])]) = .ok () := by
  have hslug := slugify_empty_of_no_alnum h
  refine ⟨hslug, ?_, ?_, ?_⟩
  · rw [hslug]
    rfl
  · rw [hslug]
    rfl
  · rfl

/-- Witness for C10 at the concrete title made only of exclamation
marks. -/
theorem empty_slug_pipeline_witness :
    slugify ("!!!") = "" ∧
    generate_unique_filename [] ("output") (slugify ("!!!"))
      = ("output/.png") ∧
    generate_unique_filename [("output/.png")] ("output") (slugify ("!!!"))
      = ("output/-1.png") ∧
    validate_config (.vdict [("title", .vstr ("!!!")),
      ("graph", .vdict [("type", .vstr "pie"),
        ("data", .vdict [("labels", .vlist []),
          ("values", .vlist [])])])]) = .ok () :=
  empty_slug_pipeline ("!!!") (by decide)

/-- C2: calculate_layout_positions is the constant record placing the title
at (64, 64), the subtitle at (64, 128), the logo at (1336, 64), the graph
region at origin (64, 256) with size 1472 x 388, and the footer baseline at
804; it is a closed constant derived from the grid and canvas constants
only, taking no input, so it can never depend on config content. -/
theorem calculate_layout_positions_constant :
    calculate_layout_positions =
      { title_x := 64, title_y := 64, subtitle_x := 64, subtitle_y := 128,
        logo_x := 1336, logo_y := 64, graph_x := 64, graph_y := 256,
        graph_width := 1472, graph_height := 388, footer_y := 804 } := by
  decide

/-- C3: whatever native raster size any of the five chart renderers
returns, the chart image that _add_chart composites onto the canvas has
exactly the layout graph region size, 1472 x 388 (the explicit resize fires
whenever the native size differs). -/
theorem add_chart_image_size (native : PILImage) :
    pilSize (add_chart_image native) =
      (calculate_layout_positions.graph_width,
       calculate_layout_positions.graph_height) ∧
    pilSize (add_chart_image native) = (1472, 388) := by
  have key : pilSize (add_chart_image native) = (1472, 388) := by
    unfold add_chart_image
    split
    · rfl
    · next h =>
      simp only [ne_eq, not_not] at h
      rw [h]
      rfl
  exact ⟨key, key⟩

/-- C8: with nonnegative category values and a positive stacked total for
the period, the segment label is drawn exactly when the segment height
strictly exceeds ten percent of the period total. -/
theorem labelDrawn_iff (row : List ℚ) (i : Nat)
    (hnn : ∀ x ∈ row, 0 ≤ x) (htot : 0 < row.sum) :
    labelDrawn row i = true ↔ row.sum / 10 < row.getD i 0 := by
  unfold labelDrawn
  split
  · next h1 =>
    split
    · next h2 =>
      simp only [true_iff]
      have h2' : (1 : ℚ) / 10 * row.sum < row.getD i 0 :=
        (lt_div_iff₀ htot).mp h2
      linarith
    · next h2 =>
      simp only [Bool.false_eq_true, false_iff, not_lt]
      have h2' : row.getD i 0 / row.sum ≤ (1 : ℚ) / 10 := not_lt.mp h2
      have h2'' : row.getD i 0 ≤ (1 : ℚ) / 10 * row.sum :=
        (div_le_iff₀ htot).mp h2'
      linarith
  · next h1 =>
    simp only [Bool.false_eq_true, false_iff, not_lt]
    have h0 : row.getD i 0 ≤ 0 := not_lt.mp h1
    have hpos : (0 : ℚ) < row.sum / 10 := by positivity
    linarith

/-- Witness for C8: on the concrete period row [3, 1, 6] the first segment
has height 3, above a tenth of the total 10, so its label is drawn. -/
theorem labelDrawn_iff_witness :
    (∀ x ∈ ([3, 1, 6] : List ℚ), 0 ≤ x) ∧ (0 < ([3, 1, 6] : List ℚ).sum) ∧
    (labelDrawn [3, 1, 6] 0 = true ↔
      ([3, 1, 6] : List ℚ).sum / 10 < ([3, 1, 6] : List ℚ).getD 0 0) :=
  ⟨by intro x hx; fin_cases hx <;> norm_num, by norm_num,
    labelDrawn_iff [3, 1, 6] 0 (by intro x hx; fin_cases hx <;> norm_num)
      (by norm_num)⟩

/-- C9 counterexample: the claim says the pie wedges proceed clockwise,
which for the Axes.pie call means counterclock = false; the source passes
no counterclock argument, so the matplotlib default true applies and the
wedges proceed counterclockwise. -/
theorem pieChartCallArgs_not_clockwise :
    ¬ pieChartCallArgs.counterclock = false := by decide

/-- C9 (amended): the pie wedges start at 90 degrees (12 on the clock face) and
proceed counterclockwise, with the percentage label at 85 percent of the
radius and the category label at 110 percent of the radius. -/
theorem pieChartCallArgs_spec :
    pieChartCallArgs.startangle = 90 ∧
    pieChartCallArgs.counterclock = true ∧
    pieChartCallArgs.pctdistance = (85 : ℚ) / 100 ∧
    pieChartCallArgs.labeldistance = (110 : ℚ) / 100 := by
  refine ⟨rfl, rfl, ?_, ?_⟩ <;> norm_num [pieChartCallArgs]
